import Mathlib

/-!
Verification of the spendtrail extraction / learning pipeline.

This file shallowly embeds the algorithmic core of the repository in Lean:
strings are `List Char`, JS numbers are `ℚ`, Mongo documents are Lean
structures, and each service/model function is translated into a pure Lean
function (database reads become list lookups over an explicit store,
database writes become returned updated stores).  The theorems at the end
settle the spec claims against these definitions.
-/

set_option maxRecDepth 20000
set_option maxHeartbeats 1000000

namespace Spendtrail

/-! ## JavaScript string primitives -/

/-- JS `\s` class restricted to the whitespace characters that occur in this
codebase's data (space, tab, newline, carriage return). -/
def isJsSpace (c : Char) : Bool :=
  c = ' ' || c = '\t' || c = '\n' || c = '\r'

/-- JS `\w` word-character class `[A-Za-z0-9_]` (used for `\b` boundaries). -/
def isJsWordChar (c : Char) : Bool :=
  (('a' ≤ c && c ≤ 'z') || ('A' ≤ c && c ≤ 'Z') || ('0' ≤ c && c ≤ '9') || c = '_')

def isLowerAlpha (c : Char) : Bool := 'a' ≤ c && c ≤ 'z'

def isDigitChar (c : Char) : Bool := '0' ≤ c && c ≤ '9'

def isLowerAlphaNum (c : Char) : Bool := isLowerAlpha c || isDigitChar c

/-- Models `String.prototype.toLowerCase` (ASCII, which is all the code relies on). -/
def lowerList (l : List Char) : List Char := l.map Char.toLower

/-- Models `String.prototype.includes`: substring containment. -/
def jsIncludes (needle : List Char) : List Char → Bool
  | [] => needle.isEmpty
  | c :: rest =>
    if (c :: rest).take needle.length = needle then true else jsIncludes needle rest

/-- Case-insensitive literal match at the head: consumes `lit` (given in
lowercase) from `l`, comparing lowercased, returning the remainder. -/
def stripCI (lit : List Char) (l : List Char) : Option (List Char) :=
  if lowerList (l.take lit.length) = lit then some (l.drop lit.length) else none

/-- Try a list of case-insensitive literal alternatives in order (regex
alternation order). -/
def stripCIAny : List (List Char) → List Char → Option (List Char)
  | [], _ => none
  | lit :: rest, l =>
    match stripCI lit l with
    | some r => some r
    | none => stripCIAny rest l

/-- Does `l` start (case-insensitively) with one of the literals? -/
def startsWithAnyCI (lits : List (List Char)) (l : List Char) : Bool :=
  (stripCIAny lits l).isSome

/-- Models `String.prototype.trim` on char lists. -/
def trimWs (l : List Char) : List Char :=
  ((l.dropWhile isJsSpace).reverse.dropWhile isJsSpace).reverse

/-- Helper for `collapseWs`: the flag records whether we are inside a
whitespace run whose single replacement space was already emitted. -/
def collapseWsAux : Bool → List Char → List Char
  | _, [] => []
  | inRun, c :: rest =>
    if isJsSpace c then
      if inRun then collapseWsAux true rest else ' ' :: collapseWsAux true rest
    else c :: collapseWsAux false rest

/-- Models `.replace(/\s+/g, ' ')`: collapse every whitespace run to a single space. -/
def collapseWs (l : List Char) : List Char := collapseWsAux false l

/-- Models `.replace(/[\.\,\;\:]+$/, '')`: strip trailing punctuation. -/
def stripTrailingPunct (l : List Char) : List Char :=
  (l.reverse.dropWhile (fun c => c = '.' || c = ',' || c = ';' || c = ':')).reverse

/-- Leading-whitespace run length. -/
def leadingWs (l : List Char) : Nat := (l.takeWhile isJsSpace).length

/-! ## src/utils/stringSimilarity.js -/

/-- One layer of the edit-distance recurrence: given the distance function
for the tail `s1`, extend it to `c1 :: s1`.  (Structured this way so that the
double recursion is structural and kernel-reducible.) -/
def levenshteinCons (c1 : Char) (levTail : List Char → Nat) : List Char → Nat
  | [] => levTail [] + 1
  | c2 :: s2 =>
    if c1 = c2 then levTail s2
    else 1 + min (levTail (c2 :: s2)) (min (levenshteinCons c1 levTail s2) (levTail s2))

/-- Models `levenshteinDistance(s1, s2)`: the DP in the source fills the standard
edit-distance recurrence (deletion / insertion / substitution, unit costs);
this is that recurrence, computed top-down. -/
def levenshteinDistance : List Char → List Char → Nat
  | [], s2 => s2.length
  | c1 :: s1, s2 => levenshteinCons c1 (levenshteinDistance s1) s2

/-- Models `similarityRatio(s1, s2)`: `(longer.length - distance) / longer.length`,
with the longer argument selected by `s1.length > s2.length`. -/
def similarityRatio (s1 s2 : List Char) : ℚ :=
  let longer := if s1.length > s2.length then s1 else s2
  let shorter := if s1.length > s2.length then s2 else s1
  if longer.length = 0 then 1
  else ((longer.length : ℚ) - (levenshteinDistance longer shorter : ℚ)) / (longer.length : ℚ)

def normalizeStopwords : List (List Char) :=
  ["the".toList, "and".toList, "pvt".toList, "ltd".toList,
   "limited".toList, "inc".toList, "corp".toList, "llc".toList]

/-- Split on whitespace runs, dropping empty tokens. -/
def splitWsTokens (l : List Char) : List (List Char) :=
  (l.splitOnP (fun c => isJsSpace c)).filter (fun t => !t.isEmpty)

/-- Join tokens with single spaces. -/
def joinSpace (ts : List (List Char)) : List Char := List.intercalate [' '] ts

/-- Models `normalizeMerchantName`: lowercase, drop chars outside `[a-z0-9\s]`, then
delete whole stop-words and collapse/trim whitespace.  After the character
filter every `\w` run is whitespace-delimited, so the word-boundary stopword
replacement followed by `\s+ → ' '` collapse and trim is exactly: tokenize on
whitespace, drop stopword tokens, re-join with single spaces. -/
def normalizeMerchantName (name : List Char) : List Char :=
  let lowered := lowerList name
  let filtered := lowered.filter (fun c => isLowerAlphaNum c || isJsSpace c)
  joinSpace ((splitWsTokens filtered).filter (fun t => !(normalizeStopwords.contains t)))

structure FuzzyResult where
  isMatch : Bool
  similarity : ℚ
deriving DecidableEq, Repr

/-- Models `fuzzyMatch(name1, name2, threshold)`. -/
def fuzzyMatch (name1 name2 : List Char) (threshold : ℚ) : FuzzyResult :=
  let normalized1 := normalizeMerchantName name1
  let normalized2 := normalizeMerchantName name2
  if normalized1 = normalized2 then { isMatch := true, similarity := 1 }
  else if jsIncludes normalized2 normalized1 || jsIncludes normalized1 normalized2 then
    -- `normalized1.includes(normalized2) || normalized2.includes(normalized1)`
    { isMatch := decide ((85 : ℚ)/100 ≥ threshold), similarity := 85/100 }
  else
    let similarity := similarityRatio normalized1 normalized2
    { isMatch := decide (similarity ≥ threshold), similarity := similarity }

/-! ## src/utils/category.classifier.js -/

def categoryMap : List (List String × String × Option String) :=
  [(["uber", "ola", "taxi"], "Transport", some "Taxi"),
   (["starbucks", "cafe", "coffee"], "Food", some "Cafe"),
   (["flipkart", "amazon", "myntra"], "Shopping", some "E-commerce"),
   (["zomato", "swiggy", "restaurant"], "Food", some "Dining"),
   (["rent", "landlord"], "Housing", some "Rent"),
   (["salary", "payroll", "credited"], "Income", none)]

/-- Models `classifyCategory(text)`: first rule with a keyword contained in the
lowercased text wins; default "General Expense". -/
def classifyCategory (text : List Char) : String × Option String :=
  let lowered := lowerList text
  match categoryMap.findSome? (fun rule =>
    if rule.1.any (fun kw => jsIncludes kw.toList lowered) then some (rule.2.1, rule.2.2)
    else none) with
  | some r => r
  | none => ("General Expense", none)

/-! ## src/utils/transactionParser.js (second, current definition in the file)

The regexes are embedded as specialized matchers: scanning is leftmost
position first, alternatives in regex order at each position, with the
greedy/lazy backtracking order of each quantifier made explicit.
-/

/-- Leftmost-match scanner: try `f` at every suffix, left to right, feeding
the previous character (for `\b` boundaries). -/
def scanLeftmostAux {α : Type} (f : Option Char → List Char → Option α) :
    Option Char → List Char → Option α
  | prev, [] => f prev []
  | prev, c :: rest =>
    match f prev (c :: rest) with
    | some r => some r
    | none => scanLeftmostAux f (some c) rest

def scanLeftmost {α : Type} (f : Option Char → List Char → Option α) (l : List Char) : Option α :=
  scanLeftmostAux f none l

/-- Number-token candidates for `[0-9,]+(?:\.[0-9]{1,2})?` at the head of `l`,
in regex backtracking order: integer part greedy (longest first), fraction
greedy (2 digits, then 1, then absent).  Each candidate is (token, rest). -/
def fractionOptions (l : List Char) : List (List Char × List Char) :=
  (match l with
   | '.' :: rest =>
     let ds := rest.takeWhile isDigitChar
     if ds.length ≥ 2 then
       [('.' :: rest.take 2, rest.drop 2), ('.' :: rest.take 1, rest.drop 1)]
     else if ds.length = 1 then [('.' :: rest.take 1, rest.drop 1)]
     else []
   | _ => []) ++ [([], l)]

def numTokenCandidates (l : List Char) : List (List Char × List Char) :=
  let maxRun := (l.takeWhile (fun c => isDigitChar c || c = ',')).length
  (List.range maxRun).flatMap (fun i =>
    let n := maxRun - i
    (fractionOptions (l.drop n)).map (fun fo => (l.take n ++ fo.1, fo.2)))

/-- Models `Rs\.?\s*` / `INR\.?\s*` / `₹\s*` consumed; the optional dot and `\s*` are
deterministic here because a capture must start with `[0-9,]`. -/
def skipDotWs (l : List Char) : List Char :=
  match l with
  | '.' :: rest => rest.dropWhile isJsSpace
  | _ => l.dropWhile isJsSpace

def afterCurrencyMarker (l : List Char) : Option (List Char) :=
  match stripCI "rs".toList l with
  | some r => some (skipDotWs r)
  | none =>
    match stripCI "inr".toList l with
    | some r => some (skipDotWs r)
    | none =>
      match stripCI "₹".toList l with
      | some r => some (r.dropWhile isJsSpace)
      | none => none

/-- Amount alternative 1: `(?:Rs\.?\s*|INR\.?\s*|₹\s*)([0-9,]+(?:\.[0-9]{1,2})?)`. -/
def amountAlt1 (l : List Char) : Option (List Char) :=
  (afterCurrencyMarker l).bind (fun r =>
    match numTokenCandidates r with
    | [] => none
    | (tok, _) :: _ => some tok)

/-- Amount alternative 2: `([0-9,]+(?:\.[0-9]{1,2})?)[\s]*(?:Rs|INR|₹)`. -/
def amountAlt2 (l : List Char) : Option (List Char) :=
  (numTokenCandidates l).findSome? (fun tc =>
    let r := tc.2.dropWhile isJsSpace
    if startsWithAnyCI ["rs".toList, "inr".toList, "₹".toList] r then some tc.1 else none)

/-- Models `\b` between the previous character and the head of `l`. -/
def atWordBoundary (prev : Option Char) (l : List Char) : Bool :=
  let pw := match prev with | none => false | some c => isJsWordChar c
  let nw := match l.head? with | none => false | some c => isJsWordChar c
  pw != nw

def amountKeywords : List (List Char) :=
  ["deduction".toList, "debited".toList, "credited".toList, "spent".toList,
   "paid".toList, "withdrawn".toList]

/-- Amount alternative 3:
`\b([0-9,]+(?:\.[0-9]{1,2})?)[\s]+(?:deduction|debited|credited|spent|paid|withdrawn)`. -/
def amountAlt3 (prev : Option Char) (l : List Char) : Option (List Char) :=
  if atWordBoundary prev l then
    (numTokenCandidates l).findSome? (fun tc =>
      let w := leadingWs tc.2
      if w ≥ 1 && startsWithAnyCI amountKeywords (tc.2.drop w) then some tc.1 else none)
  else none

def amountCapture (msg : List Char) : Option (List Char) :=
  scanLeftmost (fun prev l =>
    match amountAlt1 l with
    | some t => some t
    | none =>
      match amountAlt2 l with
      | some t => some t
      | none => amountAlt3 prev l) msg

def digitsToNat (ds : List Char) : Nat :=
  ds.foldl (fun acc c => 10 * acc + (c.toNat - '0'.toNat)) 0

/-- Models `parseFloat` on the comma-stripped captures (shape `digits* ('.' digits*)?`);
`none` models NaN. -/
def jsParseFloat (l : List Char) : Option ℚ :=
  let intDs := l.takeWhile isDigitChar
  let rest := l.drop intDs.length
  match rest with
  | '.' :: r2 =>
    let fracDs := r2.takeWhile isDigitChar
    if intDs.isEmpty && fracDs.isEmpty then none
    else some ((digitsToNat intDs : ℚ) + (digitsToNat fracDs : ℚ) / (10 : ℚ) ^ fracDs.length)
  | _ => if intDs.isEmpty then none else some (digitsToNat intDs)

/-- Capture class `[A-Za-z0-9\s\-\_\.&]` of the merchant patterns. -/
def isMerchChar (c : Char) : Bool :=
  ('a' ≤ c && c ≤ 'z') || ('A' ≤ c && c ≤ 'Z') || isDigitChar c || isJsSpace c ||
    c = '-' || c = '_' || c = '.' || c = '&'

/-- Core of merchant patterns 1-3: a separator run (`+`, greedy), a lazy
nonempty capture of `isMerchChar`s, then `\s+` and one of the keywords. -/
def lazyCapture (sepClass : Char → Bool) (kws : List (List Char)) (l : List Char) :
    Option (List Char) :=
  let maxSep := (l.takeWhile sepClass).length
  if maxSep = 0 then none
  else
    (List.range maxSep).findSome? (fun i =>
      let afterSep := l.drop (maxSep - i)
      let maxCap := (afterSep.takeWhile isMerchChar).length
      (List.range maxCap).findSome? (fun j =>
        let cap := afterSep.take (j + 1)
        let r := afterSep.drop (j + 1)
        let w := leadingWs r
        if w ≥ 1 && startsWithAnyCI kws (r.drop w) then some cap else none))

/-- Models `/(?:to|at)\s+([...]+?)(?:\s+(?:via|using|through|on|by|with|for))/i` -/
def merchPat1 (l : List Char) : Option (List Char) :=
  (stripCIAny ["to".toList, "at".toList] l).bind
    (lazyCapture isJsSpace
      ["via".toList, "using".toList, "through".toList, "on".toList,
       "by".toList, "with".toList, "for".toList])

/-- Models `/spent\s+at\s+([...]+?)(?:\s+(?:via|using|through|on))/i` -/
def merchPat2 (l : List Char) : Option (List Char) :=
  (stripCI "spent".toList l).bind (fun r1 =>
    let w := leadingWs r1
    if w = 0 then none
    else
      (stripCI "at".toList (r1.drop w)).bind
        (lazyCapture isJsSpace ["via".toList, "using".toList, "through".toList, "on".toList]))

/-- Models `/UPI[:\-\s]+([...]+?)(?:\s+(?:on|via|ref))/i` -/
def merchPat3 (l : List Char) : Option (List Char) :=
  (stripCI "upi".toList l).bind
    (lazyCapture (fun c => c = ':' || c = '-' || isJsSpace c)
      ["on".toList, "via".toList, "ref".toList])

/-- Models `/(?:to|at|from|merchant)\s+([A-Za-z0-9\s\-\_\.&]{3,30})/i`: greedy capture,
at least 3 characters, at most 30. -/
def merchPat4 (l : List Char) : Option (List Char) :=
  (stripCIAny ["to".toList, "at".toList, "from".toList, "merchant".toList] l).bind (fun rest =>
    let maxWs := leadingWs rest
    if maxWs = 0 then none
    else
      (List.range maxWs).findSome? (fun i =>
        let afterWs := rest.drop (maxWs - i)
        let run := (afterWs.takeWhile isMerchChar).length
        if min run 30 ≥ 3 then some (afterWs.take (min run 30)) else none))

/-- The merchant extraction loop: each pattern is `message.match(...)`-scanned
over the whole message in order; the first pattern with a match wins and its
capture gets `.trim().replace(/\s+/g, ' ')`; default "Unknown". -/
def extractMerchant (msg : List Char) : List Char :=
  let scan (f : List Char → Option (List Char)) : Option (List Char) :=
    scanLeftmost (fun _ l => f l) msg
  match scan merchPat1 with
  | some cap => collapseWs (trimWs cap)
  | none =>
    match scan merchPat2 with
    | some cap => collapseWs (trimWs cap)
    | none =>
      match scan merchPat3 with
      | some cap => collapseWs (trimWs cap)
      | none =>
        match scan merchPat4 with
        | some cap => collapseWs (trimWs cap)
        | none => "Unknown".toList

/-- Models `\bword\b` test (all keywords start and end with word characters, so the
boundaries amount to non-word neighbours). -/
def containsWordCI (w : List Char) (msg : List Char) : Bool :=
  (scanLeftmost (fun prev l =>
    let pw := match prev with | none => false | some c => isJsWordChar c
    if pw then none
    else
      match stripCI w l with
      | some rest =>
        let nw := match rest.head? with | none => false | some c => isJsWordChar c
        if nw then none else some ()
      | none => none) msg).isSome

def containsAnyWordCI (ws : List String) (msg : List Char) : Bool :=
  ws.any (fun w => containsWordCI w.toList msg)

/-- The `net\s*banking` branch of the netbanking regex (also covers the
literal `netbanking` branch via a zero-length `\s*`). -/
def containsNetBanking (msg : List Char) : Bool :=
  (scanLeftmost (fun prev l =>
    let pw := match prev with | none => false | some c => isJsWordChar c
    if pw then none
    else
      (stripCI "net".toList l).bind (fun r1 =>
        (stripCI "banking".toList (r1.dropWhile isJsSpace)).bind (fun r3 =>
          let nw := match r3.head? with | none => false | some c => isJsWordChar c
          if nw then none else some ()))) msg).isSome

/-- The ordered payment-method keyword checks of the parser. -/
def detectPaymentMethod (msg : List Char) : String :=
  if containsWordCI "upi".toList msg then "upi"
  else if containsAnyWordCI ["card", "visa", "master", "maestro", "rupay"] msg then "card"
  else if containsNetBanking msg || containsAnyWordCI ["neft", "rtgs", "imps"] msg then
    "netbanking"
  else if containsAnyWordCI ["wallet", "paytm", "phonepe", "gpay", "googlepay"] msg then
    "wallet"
  else if containsAnyWordCI ["cash", "atm", "withdrawal"] msg then "cash"
  else "other"

/-- Case-insensitive plain substring test (`/.../i.test(message)`, no `\b`). -/
def containsAnySubCI (ws : List String) (msg : List Char) : Bool :=
  ws.any (fun w => jsIncludes w.toList (lowerList msg))

structure Candidate where
  amount : ℚ
  currency : String
  merchant : String
  paymentMethod : String
  category : String
  subCategory : Option String
  type : String
  isParsed : Bool
deriving DecidableEq, Repr

inductive ParseResult where
  | nullInput
  | parseError (reason : String)
  | parsed (c : Candidate)
deriving DecidableEq, Repr

/-- Models `parseTransactionMessage(message)` (the second definition in the source
file, with income/expense types and the deducted/deduction keywords). -/
def parseTransactionMessage (message : String) : ParseResult :=
  if message = "" then .nullInput   -- `if (!message) return null`
  else
    let msg := message.toList
    match amountCapture msg with
    | none => .parseError "Could not parse transaction amount"
    | some amountTok =>
      let amountStr := amountTok.filter (fun c => c ≠ ',')
      match jsParseFloat amountStr with
      | none => .parseError "Could not parse valid transaction amount"
      | some amount =>
        if amount ≤ 0 then .parseError "Could not parse valid transaction amount"
        else
          let merchant := trimWs (stripTrailingPunct (extractMerchant msg))
          let paymentMethod := detectPaymentMethod msg
          let cat := classifyCategory (msg ++ ' ' :: merchant)
          let isCredit := containsAnySubCI ["credited", "received", "refund", "cashback"] msg
          -- the debit-keyword branch re-assigns the defaults (expense, positive
          -- amount), so only the credit test changes the outcome
          .parsed
            { amount := if isCredit then -amount else amount
              currency := "INR"
              merchant := merchant.asString
              paymentMethod := paymentMethod
              category := cat.1
              subCategory := cat.2
              type := if isCredit then "income" else "expense"
              isParsed := true }

/-! ## src/models/PendingTransaction.model.js: parsedData and Transaction -/

/-- JS truthiness of an optional string (`undefined`, `null` and `""` falsy). -/
def jsTruthyStr : Option String → Bool
  | none => false
  | some s => !(s = "")

/-- JS truthiness of an optional number (`undefined`, `null` and `0` falsy). -/
def jsTruthyNum : Option ℚ → Bool
  | none => false
  | some x => !(x = 0)

/-- Models `a || b` on an optional string. -/
def jsOrStr (a : Option String) (b : String) : String :=
  match a with
  | some s => if s = "" then b else s
  | none => b

/-- The `parsedData` subdocument of PendingTransaction (also the shape of the
gmail poller's `parsed` object and of `correctedData` payloads). -/
structure ParsedData where
  amount : ℚ
  type : String
  category : Option String
  description : Option String
  merchant : Option String
  date : Option Nat
  accountNumber : Option String
  balance : Option ℚ
  paymentMethod : Option String
  /-- `location.coordinates` ([lng, lat] GeoJSON order). -/
  locationCoords : Option (List ℚ)
deriving DecidableEq, Repr

/-- Transaction.location as built by `approve` (schema defaults elsewhere). -/
structure TxnLocation where
  type : String
  lat : Option ℚ
  lng : Option ℚ
  source : String
deriving DecidableEq, Repr

/-- The Transaction document fields that `approve` passes to
`Transaction.create`, plus the schema defaults for the fields it does not
pass (`currency` = "INR", `paymentMethod` = "other", `subCategory` unset). -/
structure Txn where
  user : Nat
  amount : ℚ
  currency : String
  category : String
  subCategory : Option String
  merchant : Option String
  note : Option String
  paymentMethod : String
  source : String
  timestamp : Nat
  location : Option TxnLocation
  fromPending : Bool
  userCorrected : Bool
deriving DecidableEq, Repr

/-- The `Transaction.create({...})` call inside
`pendingTransactionSchema.methods.approve`:
`transactionData = correctedData || this.parsedData`, then
amount / category-or-Other / description→note / merchant / date-or-now /
source / bank-hint location; currency, subCategory and paymentMethod are not
passed, so the Transaction schema defaults apply. -/
def mkApprovedTransaction (now user : Nat) (sourceType : String) (parsedData : ParsedData)
    (correctedData : Option ParsedData) : Txn :=
  let transactionData := correctedData.getD parsedData
  { user := user
    amount := transactionData.amount
    currency := "INR"
    category := jsOrStr transactionData.category "Other"
    subCategory := none
    merchant := transactionData.merchant
    note := transactionData.description
    paymentMethod := "other"
    source := sourceType
    timestamp := transactionData.date.getD now
    location :=
      match transactionData.locationCoords with
      | some cs => some { type := "exact", lat := cs.get? 1, lng := cs.get? 0,
                          source := "bank_hint" }
      | none => none
    fromPending := true
    userCorrected := correctedData.isSome }

/-! ## gmailPoller.js: calculateConfidenceScore -/

def transactionKeywords : List String :=
  ["debited", "credited", "spent", "paid", "received", "transaction", "purchase"]

def hasTransactionKeyword (messageText : List Char) : Bool :=
  transactionKeywords.any (fun kw => jsIncludes kw.toList (lowerList messageText))

/-- Models `parsed.category && parsed.category !== 'Other'`. -/
def categoryNonDefault (category : Option String) : Bool :=
  jsTruthyStr category && !(category = some "Other")

/-- Models `calculateConfidenceScore(parsed, messageText)`, sequential adjustments
exactly as in the source, final clamp to [0,1]. -/
def calculateConfidenceScore (parsed : ParsedData) (messageText : List Char) : ℚ :=
  let score : ℚ := 1/2
  let score := if jsTruthyStr parsed.merchant then score + 1/10 else score
  let score := if jsTruthyStr parsed.accountNumber then score + 1/10 else score
  let score := if jsTruthyNum parsed.balance then score + 1/10 else score
  let score := if jsTruthyStr parsed.paymentMethod then score + 1/10 else score
  let score := if categoryNonDefault parsed.category then score + 1/10 else score
  let score := if parsed.amount > 100000 then score - 1/5 else score
  let score := if hasTransactionKeyword messageText then score + 1/10 else score
  min (max score 0) 1

/-! ## constants/locationConstants.js -/

def LOCATION_CONFIDENCE_VERY_HIGH : ℚ := 9/10
def LOCATION_CONFIDENCE_MEDIUM : ℚ := 1/2
def LOCATION_CONFIDENCE_MINIMUM : ℚ := 2/5
def MERCHANT_LEARNING_MIN_VISITS : Nat := 2
def MERCHANT_LEARNING_VISITS_FOR_MAX_CONFIDENCE : Nat := 10
def MERCHANT_LEARNING_MAX_VISIT_HISTORY : Nat := 20

/-! ## MerchantLocation model and locationMatching.service.js learning -/

structure MerchantLocation where
  user : Nat
  merchantKey : List Char
  merchantName : List Char
  lat : ℚ
  lng : ℚ
  visits : Nat
  confidence : ℚ
  visitHistory : List (ℚ × ℚ × Nat)
  firstVisit : Nat
  lastVisit : Nat
deriving DecidableEq, Repr

/-- Models `merchantName.toLowerCase().trim()`. -/
def jsMerchantKey (name : List Char) : List Char := trimWs (lowerList name)

/-- Models `LocationMatchingService.learnMerchantLocation`: the per-merchant
read-modify-write, with the found document (or its absence) made explicit. -/
def learnMerchantLocation (existing : Option MerchantLocation) (userId : Nat)
    (merchantName : List Char) (lat lng : ℚ) (timestamp : Nat) : MerchantLocation :=
  match existing with
  | some learned =>
    let visits := learned.visits + 1
    let hist0 := learned.visitHistory ++ [(lat, lng, timestamp)]
    -- `visitHistory.slice(-MAX_VISIT_HISTORY_SIZE)` when over the cap
    let hist := if hist0.length > MERCHANT_LEARNING_MAX_VISIT_HISTORY then
        hist0.drop (hist0.length - MERCHANT_LEARNING_MAX_VISIT_HISTORY)
      else hist0
    let avgLat := (hist.map (fun v => v.1)).sum / (hist.length : ℚ)
    let avgLng := (hist.map (fun v => v.2.1)).sum / (hist.length : ℚ)
    { learned with
      visits := visits
      visitHistory := hist
      lat := avgLat
      lng := avgLng
      confidence := min ((visits : ℚ) / (MERCHANT_LEARNING_VISITS_FOR_MAX_CONFIDENCE : ℚ)) 1
      lastVisit := timestamp }
  | none =>
    { user := userId
      merchantKey := jsMerchantKey merchantName
      merchantName := merchantName
      lat := lat
      lng := lng
      visits := 1
      confidence := 1/5   -- `confidence: 0.2` on creation
      visitHistory := [(lat, lng, timestamp)]
      firstVisit := timestamp
      lastVisit := timestamp }

/-! ## Sender-domain extraction

`sender.match(/@([a-z0-9.-]+\.[a-z]{2,})$/i)?.[1]?.toLowerCase()`: the class
excludes `@`, so only the segment after the last `@` can match; it must be
entirely class characters and end in `.` followed by at least two letters,
with at least one class character before that dot. -/

def isDomainClassChar (c : Char) : Bool := isLowerAlphaNum c || c = '.' || c = '-'

def senderDomainOf (sender : List Char) : Option (List Char) :=
  if sender.contains '@' then
    let dom := lowerList ((sender.reverse.takeWhile (fun c => c ≠ '@')).reverse)
    if dom.all isDomainClassChar then
      let revD := dom.reverse
      let letters := revD.takeWhile isLowerAlpha
      if letters.length ≥ 2 && ((revD.drop letters.length).head? = some '.') &&
          dom.length ≥ letters.length + 2 then
        some dom
      else none
    else none
  else none

/-! ## EmailLocationPattern model and location matching (C6) -/

structure EmailLocationPattern where
  user : Nat
  sender : List Char
  senderDomain : Option (List Char)
  merchantKey : Option (List Char)
  /-- `locationPattern.pattern` (a stored regex source string). -/
  patternRegex : Option (List Char)
  lat : ℚ
  lng : ℚ
  confidence : ℚ
  successfulExtractions : Nat
  timesMatched : Nat
  isGlobal : Bool
deriving DecidableEq, Repr

/-- Stable insertion (earlier list elements stay first among ties), ordering by
`strictBefore`. -/
def orderedInsert {α : Type} (strictBefore : α → α → Bool) (x : α) : List α → List α
  | [] => [x]
  | y :: ys => if strictBefore x y then x :: y :: ys else y :: orderedInsert strictBefore x ys

def stableSortBy {α : Type} (strictBefore : α → α → Bool) : List α → List α
  | [] => []
  | x :: xs => orderedInsert strictBefore x (stableSortBy strictBefore xs)

/-- Models `.sort({ confidence: -1, successfulExtractions: -1 })`. -/
def locPatternBefore (a b : EmailLocationPattern) : Bool :=
  a.confidence > b.confidence ||
    (a.confidence = b.confidence && a.successfulExtractions > b.successfulExtractions)

/-- Models `EmailLocationPattern.findPatternForSender(userId, sender, merchantName)`:
a `$or` filter over (user+sender, global+domain, merchantKey), sorted by
confidence then successfulExtractions, limited to 5. -/
def findPatternForSender (db : List EmailLocationPattern) (userId : Nat)
    (sender : List Char) (merchantName : Option (List Char)) : List EmailLocationPattern :=
  let domain := senderDomainOf sender
  let cond (p : EmailLocationPattern) : Bool :=
    (p.user = userId && p.sender = lowerList sender)
    || (p.isGlobal && p.senderDomain = domain)
    || (match merchantName with
        | some mn => p.merchantKey = some (jsMerchantKey mn)
        | none => false)
  (stableSortBy locPatternBefore (db.filter cond)).take 5

/-- Models `matchEmailLocationPattern`: first pattern whose stored regex (nonempty)
tests true against the email content; the regex engine is the external
`regexTest` oracle.  (The `recordSuccess` counter update is a side effect on
the matched pattern and does not influence the returned location.) -/
def matchEmailLocationPattern (db : List EmailLocationPattern)
    (regexTest : List Char → List Char → Bool) (userId : Nat) (sender : List Char)
    (emailContent : List Char) (merchantName : Option (List Char)) :
    Option EmailLocationPattern :=
  (findPatternForSender db userId sender merchantName).find? (fun p =>
    match p.patternRegex with
    | some rx => !rx.isEmpty && regexTest rx emailContent
    | none => false)

/-- Input `parsedLocation` of `matchTransactionLocation`. -/
structure ParsedLocation where
  coordinates : Option (List ℚ)
  hint : Option (List Char)
  city : Option (List Char)
deriving DecidableEq, Repr

/-- Result of `UserLocationHistory.getAverageLocationNearTime` (background
location collaborator). -/
structure BackgroundLocation where
  lat : ℚ
  lng : ℚ
  coordinates : List ℚ
  count : Nat
  confidence : ℚ
deriving DecidableEq, Repr

/-- The object returned by `matchTransactionLocation` (fields that are absent
on a given strategy's JS object are `none`; strategy 4's `confidence` is
`undefined` in the source because `pattern.location` has no confidence
field). -/
structure LocationMatch where
  coordinates : Option (List ℚ)
  lat : Option ℚ
  lng : Option ℚ
  source : String
  confidence : Option ℚ
  locationHint : Option (List Char)
  city : Option (List Char)
  needsGeocoding : Bool
deriving DecidableEq, Repr

def jsTruthyOptList : Option (List Char) → Bool
  | none => false
  | some l => !l.isEmpty

/-- Models `getLearnedMerchantLocation(userId, merchantName)`: the Mongo `findOne`
with the `visits ≥ MIN_VISITS_FOR_CONFIDENCE` and `confidence ≥ MEDIUM`
conditions, over an explicit store. -/
def getLearnedMerchantLocation (db : List MerchantLocation) (userId : Nat)
    (merchantName : List Char) : Option MerchantLocation :=
  db.find? (fun m =>
    m.user = userId && m.merchantKey = jsMerchantKey merchantName &&
      m.visits ≥ MERCHANT_LEARNING_MIN_VISITS &&
      decide (m.confidence ≥ LOCATION_CONFIDENCE_MEDIUM))

/-- Strategy 1: already parsed GPS (`parsedLocation && parsedLocation.coordinates`). -/
def strategyParsedGps (parsedLocation : Option ParsedLocation) : Option LocationMatch :=
  match parsedLocation with
  | some pl =>
    match pl.coordinates with
    | some _ => some { coordinates := pl.coordinates, lat := none, lng := none,
                       source := "parsed_gps_coordinates",
                       confidence := some LOCATION_CONFIDENCE_VERY_HIGH,
                       locationHint := none, city := none, needsGeocoding := false }
    | none => none
  | none => none

/-- Strategy 2: learned merchant location (guarded by `if (merchantName)`). -/
def strategyLearnedMerchant (db : List MerchantLocation) (userId : Nat)
    (merchantName : Option (List Char)) : Option LocationMatch :=
  match merchantName with
  | some nm =>
    if nm.isEmpty then none
    else
      (getLearnedMerchantLocation db userId nm).map (fun m =>
        { coordinates := some [m.lng, m.lat], lat := some m.lat, lng := some m.lng,
          source := "learned_merchant_location", confidence := some m.confidence,
          locationHint := none, city := none, needsGeocoding := false })
  | none => none

/-- Strategy 3: background-location average; `matchBackgroundLocation` only
returns it when its confidence reaches `LOCATION_CONFIDENCE.MINIMUM`. -/
def strategyBackground (background : Option BackgroundLocation) : Option LocationMatch :=
  match background with
  | some b =>
    if b.confidence ≥ LOCATION_CONFIDENCE_MINIMUM then
      some { coordinates := some b.coordinates, lat := some b.lat, lng := some b.lng,
             source := "background_location_history", confidence := some b.confidence,
             locationHint := none, city := none, needsGeocoding := false }
    else none
  | none => none

/-- Strategy 4: learned email pattern (guarded by `emailSender && emailContent`). -/
def strategyEmailPattern (db : List EmailLocationPattern)
    (regexTest : List Char → List Char → Bool) (userId : Nat)
    (emailSender emailContent : Option (List Char)) (merchantName : Option (List Char)) :
    Option LocationMatch :=
  if jsTruthyOptList emailSender && jsTruthyOptList emailContent then
    (matchEmailLocationPattern db regexTest userId (emailSender.getD [])
        (emailContent.getD []) merchantName).map (fun p =>
      { coordinates := some [p.lng, p.lat], lat := some p.lat, lng := some p.lng,
        source := "email_pattern", confidence := none,
        locationHint := none, city := none, needsGeocoding := false })
  else none

/-- Strategy 5: free-text hint (`parsedLocation && parsedLocation.hint`). -/
def strategyTextHint (parsedLocation : Option ParsedLocation) : Option LocationMatch :=
  match parsedLocation with
  | some pl =>
    match pl.hint with
    | some h =>
      if h.isEmpty then none
      else some { coordinates := none, lat := none, lng := none, source := "text_hint",
                  confidence := some (3/10), locationHint := some h, city := pl.city,
                  needsGeocoding := true }
    | none => none
  | none => none

/-- Models `LocationMatchingService.matchTransactionLocation`: the five strategies in
source order, returning the first success, else null. -/
def matchTransactionLocation (merchantDb : List MerchantLocation)
    (background : Option BackgroundLocation) (patternDb : List EmailLocationPattern)
    (regexTest : List Char → List Char → Bool) (userId : Nat)
    (merchantName emailSender emailContent : Option (List Char))
    (parsedLocation : Option ParsedLocation) : Option LocationMatch :=
  match strategyParsedGps parsedLocation with
  | some r => some r
  | none =>
    match strategyLearnedMerchant merchantDb userId merchantName with
    | some r => some r
    | none =>
      match strategyBackground background with
      | some r => some r
      | none =>
        match strategyEmailPattern patternDb regexTest userId emailSender emailContent
            merchantName with
        | some r => some r
        | none => strategyTextHint parsedLocation

/-! ## EmailParsingPattern model (part of the email-sender pattern learner) -/

/-- The amount/type/merchant/category/paymentMethod snapshots stored in
`originalParsed` and `correctedData`. -/
structure TxSnapshot where
  amount : Option ℚ
  type : Option String
  merchant : Option String
  category : Option String
  paymentMethod : Option String
deriving DecidableEq, Repr

structure EmailParsingPattern where
  user : Option Nat
  isGlobal : Bool
  confirmedByUsers : Nat
  sender : List Char
  senderDomain : Option (List Char)
  originalParsed : TxSnapshot
  correctedData : TxSnapshot
  rawSubject : Option String
  rawBody : Option String
  confidence : ℚ
  timesApplied : Nat
  successRate : ℚ
deriving DecidableEq, Repr

/-- The grouping key
`${correctedData.amount}_${correctedData.type}_${correctedData.merchant}`
(modelled as the value triple rather than its string interpolation). -/
def patternGroupKey (p : EmailParsingPattern) : Option ℚ × Option String × Option String :=
  (p.correctedData.amount, p.correctedData.type, p.correctedData.merchant)

def updateFirstWhere {α : Type} (pred : α → Bool) (f : α → α) : List α → List α
  | [] => []
  | x :: xs => if pred x then f x :: xs else x :: updateFirstWhere pred f xs

/-- The global pattern created (or the field updates applied) by promotion:
`confidence = min(0.95, 0.7 + uniqueUsers * 0.05)`. -/
def promotedConfidence (uniqueUsers : Nat) : ℚ :=
  min (95/100) (7/10 + (uniqueUsers : ℚ) * (5/100))

def mkGlobalPattern (uniqueUsers : Nat) (rep : EmailParsingPattern) : EmailParsingPattern :=
  { user := none
    isGlobal := true
    confirmedByUsers := uniqueUsers
    sender := rep.sender
    senderDomain := rep.senderDomain
    originalParsed := rep.originalParsed
    correctedData := rep.correctedData
    rawSubject := rep.rawSubject
    rawBody := rep.rawBody
    confidence := promotedConfidence uniqueUsers
    timesApplied := 0
    successRate := 9/10 }

/-- The `for (const [key, patterns] of Object.entries(patternGroups))` loop:
on creating a new global pattern it returns `true` immediately; on updating an
existing one it continues; after the loop it returns `false`. -/
def promoteLoop (similar : List EmailParsingPattern)
    (senderDomain : Option (List Char)) :
    List EmailParsingPattern → List (Option ℚ × Option String × Option String) →
      Bool × List EmailParsingPattern
  | db, [] => (false, db)
  | db, k :: ks =>
    let patterns := similar.filter (fun p => patternGroupKey p = k)
    let uniqueUsers := (patterns.filterMap (fun p => p.user)).dedup
    match patterns with
    | [] => promoteLoop similar senderDomain db ks
    | rep :: _ =>
      if uniqueUsers.length ≥ 3 then
        match db.find? (fun g => g.isGlobal && g.senderDomain = senderDomain &&
            g.correctedData.type = rep.correctedData.type) with
        | none => (true, db ++ [mkGlobalPattern uniqueUsers.length rep])
        | some _ =>
          promoteLoop similar senderDomain
            (updateFirstWhere
              (fun g => g.isGlobal && g.senderDomain = senderDomain &&
                g.correctedData.type = rep.correctedData.type)
              (fun g => { g with confirmedByUsers := uniqueUsers.length,
                                 confidence := promotedConfidence uniqueUsers.length })
              db) ks
      else promoteLoop similar senderDomain db ks

/-- Models `EmailParsingPattern.promoteToGlobal(senderDomain, sender)`: scan
non-global patterns for this sender/domain with confidence strictly above
0.7, group them by corrected (amount, type, merchant), and promote any group
confirmed by at least 3 distinct users. -/
def promoteToGlobal (db : List EmailParsingPattern) (senderDomain : Option (List Char))
    (sender : List Char) : Bool × List EmailParsingPattern :=
  let similarPatterns := db.filter (fun p =>
    !p.isGlobal && (p.sender = lowerList sender || p.senderDomain = senderDomain) &&
      decide (p.confidence > 7/10))
  let keys := similarPatterns.foldl
    (fun ks p => if ks.contains (patternGroupKey p) then ks else ks ++ [patternGroupKey p]) []
  promoteLoop similarPatterns senderDomain db keys

/-! ## PendingTransaction workflow (routes + model methods) -/

structure PendingRec where
  pid : Nat
  user : Nat
  parsedData : ParsedData
  sourceType : String
  sourceEmailId : Option String
  sourceRawContent : Option String
  sourceSubject : Option String
  sourceFrom : Option String
  confidenceScore : ℚ
  status : String
  feedbackApproved : Option Bool
  feedbackCorrectedData : Option ParsedData
  feedbackDate : Option Nat
  feedbackNotes : Option String
  approvedTransaction : Option Nat
  notificationSent : Bool
  createdAt : Nat
  expiresAt : Nat
deriving DecidableEq, Repr

/-- Schema default `expiresAt`: creation time + 7 days (in milliseconds). -/
def defaultExpiresAt (now : Nat) : Nat := now + 7 * 24 * 60 * 60 * 1000

/-- The persistent stores touched by the modelled pending-transaction
operations.  (The MerchantPattern / LearningPattern / location-learning
writes the approve route also performs live in further stores that no claim
depends on; they are outside this model.) -/
structure Store where
  pendings : List PendingRec
  transactions : List Txn
  emailPatterns : List EmailParsingPattern
deriving DecidableEq, Repr

def snapshotOf (pd : ParsedData) : TxSnapshot :=
  { amount := some pd.amount, type := some pd.type, merchant := pd.merchant,
    category := pd.category, paymentMethod := pd.paymentMethod }

/-- The learning block inside `approve`: when the user corrected a gmail
message with a sender, create a user-scoped EmailParsingPattern with
confidence 0.7 and immediately run the promotion check. -/
def approveLearningStep (rec : PendingRec) (correctedData : Option ParsedData)
    (patterns : List EmailParsingPattern) : List EmailParsingPattern :=
  match correctedData with
  | some cd =>
    if rec.sourceType = "gmail" && jsTruthyStr rec.sourceFrom then
      let sender := (rec.sourceFrom.getD "").toList
      let dom := senderDomainOf sender
      let newPat : EmailParsingPattern :=
        { user := some rec.user
          isGlobal := false
          confirmedByUsers := 1
          sender := lowerList sender
          senderDomain := dom
          originalParsed := snapshotOf rec.parsedData
          correctedData := snapshotOf cd
          rawSubject := rec.sourceSubject
          rawBody := rec.sourceRawContent.map (fun s => (s.toList.take 500).asString)
          confidence := 7/10   -- `confidence: 0.7, // Start with medium confidence`
          timesApplied := 0
          successRate := 0 }
      (promoteToGlobal (patterns ++ [newPat]) dom sender).2
    else patterns
  | none => patterns

inductive ApproveOutcome where
  | notFoundOrAlreadyProcessed
  | approved (tid : Nat)
deriving DecidableEq, Repr

inductive RejectOutcome where
  | notFoundOrAlreadyProcessed
  | rejected
deriving DecidableEq, Repr

/-- The `findOne({ _id, user, status: 'pending' })` filter both routes use. -/
def pendingLookup (uid pid : Nat) (r : PendingRec) : Bool :=
  r.pid = pid && r.user = uid && r.status = "pending"

/-- Models `POST /pending-transactions/:id/approve`: look the record up while still
`pending` (else a "not found or already processed" error), then run the
model's `approve` (learning step, `Transaction.create`, status flip, feedback
record).  New transaction ids are allocated sequentially. -/
def approveRoute (st : Store) (now uid pid : Nat) (correctedData : Option ParsedData) :
    ApproveOutcome × Store :=
  match st.pendings.find? (pendingLookup uid pid) with
  | none => (.notFoundOrAlreadyProcessed, st)
  | some r =>
    let patterns2 := approveLearningStep r correctedData st.emailPatterns
    let txn := mkApprovedTransaction now r.user r.sourceType r.parsedData correctedData
    let tid := st.transactions.length
    let r2 := { r with status := "approved", approvedTransaction := some tid,
                       feedbackApproved := some true,
                       feedbackCorrectedData := correctedData,
                       feedbackDate := some now }
    (.approved tid,
     { pendings := st.pendings.map (fun q => if q.pid = r.pid then r2 else q)
       transactions := st.transactions ++ [txn]
       emailPatterns := patterns2 })

/-- Models `POST /pending-transactions/:id/reject`: same `pending`-only lookup, then
the model's `reject` (status flip and feedback, no transaction and no
learning). -/
def rejectRoute (st : Store) (now uid pid : Nat) (reason : Option String) :
    RejectOutcome × Store :=
  match st.pendings.find? (pendingLookup uid pid) with
  | none => (.notFoundOrAlreadyProcessed, st)
  | some r =>
    let r2 := { r with status := "rejected", feedbackApproved := some false,
                       feedbackDate := some now, feedbackNotes := reason }
    (.rejected,
     { st with pendings := st.pendings.map (fun q => if q.pid = r.pid then r2 else q) })

/-- The per-document effect of
`updateMany({status:'pending', expiresAt:{$lt:now}}, {$set:{status:'expired'}})`. -/
def expireStep (now : Nat) (r : PendingRec) : PendingRec :=
  if r.status = "pending" ∧ r.expiresAt < now then { r with status := "expired" } else r

/-- Models `PendingTransaction.expireOldTransactions()`: the sweep over the store and
its `modifiedCount`. -/
def expireOldTransactions (now : Nat) (db : List PendingRec) : List PendingRec × Nat :=
  (db.map (expireStep now),
   (db.filter (fun r => r.status = "pending" ∧ r.expiresAt < now)).length)

/-! ## Concrete sample data used by witnesses and counterexamples -/

def pd0 : ParsedData :=
  { amount := 100, type := "expense", category := some "Food", description := some "pizza",
    merchant := some "Dominos", date := some 5, accountNumber := none, balance := none,
    paymentMethod := some "upi", locationCoords := none }

def rec0 : PendingRec :=
  { pid := 42, user := 7, parsedData := pd0, sourceType := "sms", sourceEmailId := none,
    sourceRawContent := none, sourceSubject := none, sourceFrom := none,
    confidenceScore := 1/2, status := "pending", feedbackApproved := none,
    feedbackCorrectedData := none, feedbackDate := none, feedbackNotes := none,
    approvedTransaction := none, notificationSent := false, createdAt := 0,
    expiresAt := defaultExpiresAt 0 }

def st0 : Store := { pendings := [rec0], transactions := [], emailPatterns := [] }

def sampleCorrectedSnap : TxSnapshot :=
  { amount := some 500, type := some "expense", merchant := some "Amazon",
    category := some "Shopping", paymentMethod := some "card" }

def sampleOriginalSnap : TxSnapshot :=
  { amount := some 500, type := some "expense", merchant := some "AMZN",
    category := none, paymentMethod := none }

/-- A user-scoped correction pattern for sender alerts@bank.com, as
`approve` records it (modulo the chosen confidence). -/
def samplePattern (u : Nat) (conf : ℚ) : EmailParsingPattern :=
  { user := some u, isGlobal := false, confirmedByUsers := 1,
    sender := "alerts@bank.com".toList, senderDomain := some "bank.com".toList,
    originalParsed := sampleOriginalSnap, correctedData := sampleCorrectedSnap,
    rawSubject := none, rawBody := none, confidence := conf, timesApplied := 0,
    successRate := 0 }

def sampleMerchLoc : MerchantLocation :=
  { user := 3, merchantKey := "cafe x".toList, merchantName := "Cafe X".toList,
    lat := 10, lng := 20, visits := 1, confidence := 1/5,
    visitHistory := [(10, 20, 0)], firstVisit := 0, lastVisit := 0 }

/-! ## Levenshtein symmetry lemmas -/

theorem levenshteinDistance_nil_right (s : List Char) :
    levenshteinDistance s [] = s.length := by
  induction s with
  | nil => rfl
  | cons c t ih =>
    show levenshteinDistance t [] + 1 = t.length + 1
    rw [ih]

theorem levenshteinDistance_cons_cons (c1 c2 : Char) (s1 s2 : List Char) :
    levenshteinDistance (c1 :: s1) (c2 :: s2) =
      if c1 = c2 then levenshteinDistance s1 s2
      else 1 + min (levenshteinDistance s1 (c2 :: s2))
          (min (levenshteinDistance (c1 :: s1) s2) (levenshteinDistance s1 s2)) := rfl

theorem levenshteinDistance_symm (s1 s2 : List Char) :
    levenshteinDistance s1 s2 = levenshteinDistance s2 s1 := by
  induction s1 generalizing s2 with
  | nil => simp [levenshteinDistance, levenshteinDistance_nil_right]
  | cons c1 t1 ih1 =>
    induction s2 with
    | nil =>
      rw [levenshteinDistance_nil_right]
      simp [levenshteinDistance]
    | cons c2 t2 ih2 =>
      rw [levenshteinDistance_cons_cons, levenshteinDistance_cons_cons]
      by_cases h : c1 = c2
      · subst h
        simp [ih1]
      · have h2 : ¬ c2 = c1 := fun hh => h hh.symm
        rw [if_neg h, if_neg h2, ih1 (c2 :: t2), ih1 t2, ih2]
        omega

theorem similarityRatio_symm (s1 s2 : List Char) :
    similarityRatio s1 s2 = similarityRatio s2 s1 := by
  unfold similarityRatio
  by_cases h1 : s1.length > s2.length
  · have h2 : ¬ s2.length > s1.length := by omega
    simp only [if_pos h1, if_neg h2]
  · by_cases h2 : s2.length > s1.length
    · simp only [if_neg h1, if_pos h2]
    · have hlen : s1.length = s2.length := by omega
      simp only [if_neg h1, if_neg h2]
      rw [levenshteinDistance_symm s2 s1, hlen]

/-- C10: `fuzzyMatch` is symmetric: for every pair of names and every
threshold, both the match flag and the similarity value are unchanged when
the arguments are swapped (normalization is per argument, the containment
test is checked in both directions, and `similarityRatio` orders its
arguments by length before computing the Levenshtein distance). -/
theorem fuzzyMatch_symm (a b : List Char) (threshold : ℚ) :
    fuzzyMatch a b threshold = fuzzyMatch b a threshold := by
  unfold fuzzyMatch
  by_cases h : normalizeMerchantName a = normalizeMerchantName b
  · have h' : normalizeMerchantName b = normalizeMerchantName a := h.symm
    rw [if_pos h, if_pos h']
  · have h' : ¬ normalizeMerchantName b = normalizeMerchantName a := fun hh => h hh.symm
    rw [if_neg h, if_neg h',
      Bool.or_comm (jsIncludes (normalizeMerchantName b) (normalizeMerchantName a)),
      similarityRatio_symm]

/-- C4: the source's containment branch is commented
`// Check if one contains the other (for "SBUX" vs "Starbucks")`, but
`"sbux"` is not a substring of `"starbucks"`, so `String.includes` can never
relate this pair: both directions return `match = false` with similarity
`(9 - 6)/9 = 1/3 < 0.75`, contradicting the claimed `match = true` at
similarity 0.85. -/
theorem fuzzyMatch_sbux_starbucks :
    fuzzyMatch "SBUX".toList "Starbucks".toList (3/4) =
      { isMatch := false, similarity := 1/3 } ∧
    fuzzyMatch "Starbucks".toList "SBUX".toList (3/4) =
      { isMatch := false, similarity := 1/3 } := by
  constructor <;> with_unfolding_all decide

/-- C7: the confidence score equals 0.5 plus 0.1 for each of merchant /
account number / balance / payment method present and category present and
different from the default category value "Other", minus 0.2 when the amount
exceeds 100000, plus 0.1 when the text contains a transaction keyword,
clamped to [0, 1]. -/
theorem calculateConfidenceScore_formula (parsed : ParsedData) (messageText : List Char) :
    calculateConfidenceScore parsed messageText =
      min (max ((1 : ℚ)/2
        + (if jsTruthyStr parsed.merchant then (1 : ℚ)/10 else 0)
        + (if jsTruthyStr parsed.accountNumber then (1 : ℚ)/10 else 0)
        + (if jsTruthyNum parsed.balance then (1 : ℚ)/10 else 0)
        + (if jsTruthyStr parsed.paymentMethod then (1 : ℚ)/10 else 0)
        + (if categoryNonDefault parsed.category then (1 : ℚ)/10 else 0)
        - (if parsed.amount > 100000 then (1 : ℚ)/5 else 0)
        + (if hasTransactionKeyword messageText then (1 : ℚ)/10 else 0)) 0) 1 := by
  unfold calculateConfidenceScore
  split_ifs <;> ring_nf

/-- C9: the expiry sweep flips exactly the `pending` records whose
`expiresAt` is in the past to `expired`, leaves every other record
unchanged, and an immediately repeated run modifies zero records. -/
theorem expireOldTransactions_spec :
    (∀ now r, r.status = "pending" → r.expiresAt < now →
        expireStep now r = { r with status := "expired" }) ∧
    (∀ now r, r.status ≠ "pending" → expireStep now r = r) ∧
    (∀ now r, ¬ r.expiresAt < now → expireStep now r = r) ∧
    (∀ now db, (expireOldTransactions now db).1 = db.map (expireStep now)) ∧
    (∀ now db, expireOldTransactions now ((expireOldTransactions now db).1) =
        ((expireOldTransactions now db).1, 0)) := by
  have hstep : ∀ now r, expireStep now (expireStep now r) = expireStep now r := by
    intro now r
    unfold expireStep
    by_cases h : r.status = "pending" ∧ r.expiresAt < now
    · rw [if_pos h]
      rw [if_neg]
      simp
    · rw [if_neg h, if_neg h]
  have hnomatch : ∀ now (r : PendingRec),
      ¬((expireStep now r).status = "pending" ∧ (expireStep now r).expiresAt < now) := by
    intro now r
    unfold expireStep
    by_cases h : r.status = "pending" ∧ r.expiresAt < now
    · rw [if_pos h]
      simp
    · rw [if_neg h]
      exact h
  refine ⟨?_, ?_, ?_, ?_, ?_⟩
  · intro now r h1 h2
    unfold expireStep
    rw [if_pos ⟨h1, h2⟩]
  · intro now r h1
    unfold expireStep
    rw [if_neg (fun hh => h1 hh.1)]
  · intro now r h1
    unfold expireStep
    rw [if_neg (fun hh => h1 hh.2)]
  · intro now db
    rfl
  · intro now db
    unfold expireOldTransactions
    refine Prod.ext_iff.mpr ⟨?_, ?_⟩
    · simp only
      induction db with
      | nil => rfl
      | cons r t ih =>
        simp only [List.map_cons, List.map_map] at ih ⊢
        rw [hstep]
        exact congrArg _ ih
    · simp only
      induction db with
      | nil => rfl
      | cons r t ih =>
        simp only [List.map_cons, List.filter_cons]
        have := hnomatch now r
        simp only [decide_eq_true_eq, this, if_false, decide_eq_false this]
        exact ih

/-- Concrete data for the C9 witness: one long-expired pending record and one
fresh pending record. -/
def recExpired : PendingRec := { rec0 with pid := 43, expiresAt := 100 }

def recFresh : PendingRec := { rec0 with pid := 44, expiresAt := 10 ^ 12 }

theorem expireOldTransactions_spec_witness :
    expireStep 200 recExpired = { recExpired with status := "expired" } ∧
    expireStep 200 recFresh = recFresh ∧
    expireOldTransactions 200 ((expireOldTransactions 200 [recExpired, recFresh]).1) =
      ((expireOldTransactions 200 [recExpired, recFresh]).1, 0) :=
  ⟨expireOldTransactions_spec.1 200 recExpired rfl (by decide),
   expireOldTransactions_spec.2.2.1 200 recFresh (by decide),
   expireOldTransactions_spec.2.2.2.2 200 [recExpired, recFresh]⟩

/-- C3: the promotion step can never fire on corrections recorded by
`approve`: those are stored with confidence exactly 0.7, while
`promoteToGlobal` filters with the strict `confidence > 0.7`, so three
distinct users with identical 0.7-confidence corrections for
alerts@bank.com produce no global pattern (first conjunct).  Had the same
three patterns sat strictly above the threshold, promotion would create
exactly the global pattern the claim describes, with `confirmedByUsers = 3`
and confidence `min(0.95, 0.7 + 3*0.05) = 0.85` (second conjunct). -/
theorem promoteToGlobal_strict_threshold :
    promoteToGlobal [samplePattern 1 (7/10), samplePattern 2 (7/10), samplePattern 3 (7/10)]
        (some "bank.com".toList) "alerts@bank.com".toList
      = (false, [samplePattern 1 (7/10), samplePattern 2 (7/10), samplePattern 3 (7/10)]) ∧
    promoteToGlobal
        [samplePattern 1 (71/100), samplePattern 2 (71/100), samplePattern 3 (71/100)]
        (some "bank.com".toList) "alerts@bank.com".toList
      = (true, [samplePattern 1 (71/100), samplePattern 2 (71/100), samplePattern 3 (71/100),
          mkGlobalPattern 3 (samplePattern 1 (71/100))]) ∧
    (mkGlobalPattern 3 (samplePattern 1 (71/100))).confirmedByUsers = 3 ∧
    (mkGlobalPattern 3 (samplePattern 1 (71/100))).confidence = 85/100 ∧
    (mkGlobalPattern 3 (samplePattern 1 (71/100))).isGlobal = true := by
  refine ⟨?_, ?_, ?_, ?_, ?_⟩ <;> with_unfolding_all decide

/-- The merchant field of a successful parse. -/
def parsedMerchant : ParseResult → Option String
  | .parsed c => some c.merchant
  | _ => none

def msgC8 : String := "INR 5,000 credited to your account, refund from Amazon"

/-- C8 counterexample: parsing the claimed message does succeed, but the
merchant it extracts is "your account", not "Amazon" — the first matching
positional regex is the generic `to/at/from` pattern, whose leftmost match is
`to your account`. -/
theorem parseTransactionMessage_refund_not_amazon :
    parsedMerchant (parseTransactionMessage msgC8) = some "your account" ∧
    parsedMerchant (parseTransactionMessage msgC8) ≠ some "Amazon" := by
  constructor <;> decide

/-- C8 (amended): the message parses to amount -5000 and type income (the
credit keyword negates the stored amount), but merchant "your account"; the
`amazon` keyword still classifies the category as Shopping/E-commerce. -/
theorem parseTransactionMessage_refund_message :
    parseTransactionMessage msgC8 =
      ParseResult.parsed
        { amount := -5000, currency := "INR", merchant := "your account",
          paymentMethod := "other", category := "Shopping",
          subCategory := some "E-commerce", type := "income", isParsed := true } := by
  decide

/-! ## C1: approve/reject idempotence -/

theorem pendingLookup_spec (uid pid : Nat) (r : PendingRec) (h : pendingLookup uid pid r = true) :
    r.pid = pid ∧ r.user = uid ∧ r.status = "pending" := by
  simp only [pendingLookup, Bool.and_eq_true, decide_eq_true_eq] at h
  exact ⟨h.1.1, h.1.2, h.2⟩

theorem find?_none_after_update (uid pid : Nat) (pend : List PendingRec) (r2 : PendingRec)
    (hstat : ¬ r2.status = "pending") :
    (pend.map (fun q => if q.pid = pid then r2 else q)).find? (pendingLookup uid pid) = none := by
  rw [List.find?_eq_none]
  intro x hx
  rw [List.mem_map] at hx
  obtain ⟨q, hq, rfl⟩ := hx
  by_cases hqq : q.pid = pid
  · rw [if_pos hqq]
    simp [pendingLookup, hstat]
  · rw [if_neg hqq]
    simp only [pendingLookup, Bool.and_eq_true, decide_eq_true_eq]
    intro hcon
    exact hqq hcon.1.1

/-- C1: after a successful approval of (user, id), a second approve call on
the same (user, id) returns the not-found/already-processed error and leaves
the whole store (in particular the transaction list) unchanged; moreover both
approve and reject only succeed when a record with that id and user exists in
status `pending`. -/
theorem approveRoute_alreadyProcessed :
    (∀ st st2 now now2 uid pid c c2 tid,
        approveRoute st now uid pid c = (.approved tid, st2) →
        approveRoute st2 now2 uid pid c2 = (.notFoundOrAlreadyProcessed, st2)) ∧
    (∀ st now uid pid c tid st2,
        approveRoute st now uid pid c = (.approved tid, st2) →
        ∃ r, r ∈ st.pendings ∧ r.pid = pid ∧ r.user = uid ∧ r.status = "pending") ∧
    (∀ st now uid pid reason st2,
        rejectRoute st now uid pid reason = (.rejected, st2) →
        ∃ r, r ∈ st.pendings ∧ r.pid = pid ∧ r.user = uid ∧ r.status = "pending") := by
  refine ⟨?_, ?_, ?_⟩
  · intro st st2 now now2 uid pid c c2 tid h
    unfold approveRoute at h ⊢
    cases hfind : st.pendings.find? (pendingLookup uid pid) with
    | none =>
      rw [hfind] at h
      simp at h
    | some r =>
      rw [hfind] at h
      obtain ⟨hrpid, hruid, hrstat⟩ := pendingLookup_spec uid pid r (List.find?_some hfind)
      rw [Prod.mk.injEq] at h
      obtain ⟨-, h2⟩ := h
      subst h2
      rw [hrpid]
      rw [find?_none_after_update uid pid st.pendings _ (by simp)]
  · intro st now uid pid c tid st2 h
    unfold approveRoute at h
    cases hfind : st.pendings.find? (pendingLookup uid pid) with
    | none =>
      rw [hfind] at h
      simp at h
    | some r =>
      exact ⟨r, List.mem_of_find?_eq_some hfind,
        pendingLookup_spec uid pid r (List.find?_some hfind)⟩
  · intro st now uid pid reason st2 h
    unfold rejectRoute at h
    cases hfind : st.pendings.find? (pendingLookup uid pid) with
    | none =>
      rw [hfind] at h
      simp at h
    | some r =>
      exact ⟨r, List.mem_of_find?_eq_some hfind,
        pendingLookup_spec uid pid r (List.find?_some hfind)⟩

theorem approveRoute_alreadyProcessed_witness :
    approveRoute ((approveRoute st0 3 7 42 none).2) 4 7 42 none =
      (.notFoundOrAlreadyProcessed, (approveRoute st0 3 7 42 none).2) := by
  have h : approveRoute st0 3 7 42 none = (.approved 0, (approveRoute st0 3 7 42 none).2) := by
    have h1 : (approveRoute st0 3 7 42 none).1 = .approved 0 := by decide
    exact Prod.ext_iff.mpr ⟨h1, rfl⟩
  exact approveRoute_alreadyProcessed.1 st0 _ 3 4 7 42 none none 0 h

/-! ## C2: what approval without corrections copies into the Transaction -/

/-- C2 counterexample: `pd0` carries paymentMethod `upi`, but the Transaction
built by approval without corrections has paymentMethod `"other"` (the field
is not passed to `Transaction.create`, so the schema default applies) — the
claimed field-for-field equality fails. -/
theorem mkApprovedTransaction_drops_paymentMethod :
    pd0.paymentMethod = some "upi" ∧
    (mkApprovedTransaction 3 7 "sms" pd0 none).paymentMethod = "other" ∧
    some (mkApprovedTransaction 3 7 "sms" pd0 none).paymentMethod ≠ pd0.paymentMethod := by
  refine ⟨rfl, rfl, ?_⟩
  decide

/-- C2 (amended): approving with no correctedData copies amount, merchant,
description (as note) and date (as timestamp, defaulting to now) from the
parsed snapshot, and copies category when present and nonempty (else
"Other"); currency, subCategory and paymentMethod are not copied — the
Transaction takes the schema defaults "INR", none and "other". -/
theorem mkApprovedTransaction_no_correction (now user : Nat) (sourceType : String)
    (pd : ParsedData) :
    (mkApprovedTransaction now user sourceType pd none).amount = pd.amount ∧
    (mkApprovedTransaction now user sourceType pd none).merchant = pd.merchant ∧
    (mkApprovedTransaction now user sourceType pd none).note = pd.description ∧
    (∀ d, pd.date = some d → (mkApprovedTransaction now user sourceType pd none).timestamp = d) ∧
    (pd.date = none → (mkApprovedTransaction now user sourceType pd none).timestamp = now) ∧
    (∀ c, pd.category = some c → ¬ c = "" →
        (mkApprovedTransaction now user sourceType pd none).category = c) ∧
    (pd.category = none ∨ pd.category = some "" →
        (mkApprovedTransaction now user sourceType pd none).category = "Other") ∧
    (mkApprovedTransaction now user sourceType pd none).currency = "INR" ∧
    (mkApprovedTransaction now user sourceType pd none).subCategory = none ∧
    (mkApprovedTransaction now user sourceType pd none).paymentMethod = "other" := by
  refine ⟨rfl, rfl, rfl, ?_, ?_, ?_, ?_, rfl, rfl, rfl⟩
  · intro d hd
    simp [mkApprovedTransaction, hd]
  · intro hd
    simp [mkApprovedTransaction, hd]
  · intro c hc hcne
    simp [mkApprovedTransaction, jsOrStr, hc, hcne]
  · rintro (hc | hc) <;> simp [mkApprovedTransaction, jsOrStr, hc]

theorem mkApprovedTransaction_no_correction_witness :
    (mkApprovedTransaction 3 7 "sms" pd0 none).amount = pd0.amount ∧
    (mkApprovedTransaction 3 7 "sms" pd0 none).timestamp = 5 ∧
    (mkApprovedTransaction 3 7 "sms" pd0 none).category = "Food" ∧
    (mkApprovedTransaction 3 7 "sms" pd0 none).paymentMethod = "other" := by
  obtain ⟨h1, h2, h3, h4, h5, h6, h7, h8, h9, h10⟩ :=
    mkApprovedTransaction_no_correction 3 7 "sms" pd0
  exact ⟨h1, h4 5 rfl, h6 "Food" rfl (by decide), h10⟩

/-! ## C5: MerchantLocation confidence -/

/-- C5 counterexample: on creation (`MerchantLocation.create` inside
`learnMerchantLocation`) the record has visits 1 but confidence 0.2, not
`min(1/10, 1) = 0.1` — the claimed formula fails for the create case. -/
theorem learnMerchantLocation_create_confidence :
    (learnMerchantLocation none 3 ("Cafe X".toList) 10 20 0).visits = 1 ∧
    (learnMerchantLocation none 3 ("Cafe X".toList) 10 20 0).confidence = 1/5 ∧
    (learnMerchantLocation none 3 ("Cafe X".toList) 10 20 0).confidence ≠
      min (((learnMerchantLocation none 3 ("Cafe X".toList) 10 20 0).visits : ℚ) /
        (MERCHANT_LEARNING_VISITS_FOR_MAX_CONFIDENCE : ℚ)) 1 := by
  refine ⟨rfl, rfl, ?_⟩
  with_unfolding_all decide

/-- C5 (amended): every visit-update sets confidence to exactly
`min(visits/10, 1)`; creation initializes visits 1 with confidence 0.2 (not
the formula value 0.1); along any chain confidence is non-decreasing (both
from the 0.2 start and between formula values), and it saturates at 1.0 once
visits reaches 10. -/
theorem learnMerchantLocation_confidence (m : MerchantLocation) (uid : Nat)
    (nm : List Char) (lat lng : ℚ) (ts : Nat) :
    (learnMerchantLocation (some m) uid nm lat lng ts).visits = m.visits + 1 ∧
    (learnMerchantLocation (some m) uid nm lat lng ts).confidence =
      min (((m.visits + 1 : Nat) : ℚ) / 10) 1 ∧
    ((learnMerchantLocation none uid nm lat lng ts).visits = 1 ∧
      (learnMerchantLocation none uid nm lat lng ts).confidence = 1/5) ∧
    (m.confidence ≤ min ((m.visits : ℚ) / 10) 1 ∨ (m.confidence = 1/5 ∧ 1 ≤ m.visits) →
      m.confidence ≤ (learnMerchantLocation (some m) uid nm lat lng ts).confidence) ∧
    (10 ≤ m.visits + 1 → (learnMerchantLocation (some m) uid nm lat lng ts).confidence = 1) := by
  have hconf : (learnMerchantLocation (some m) uid nm lat lng ts).confidence =
      min (((m.visits + 1 : Nat) : ℚ) / 10) 1 := by
    show min ((((m.visits + 1 : Nat)) : ℚ) / ((MERCHANT_LEARNING_VISITS_FOR_MAX_CONFIDENCE : Nat) : ℚ)) 1 =
      min (((m.visits + 1 : Nat) : ℚ) / 10) 1
    norm_num [MERCHANT_LEARNING_VISITS_FOR_MAX_CONFIDENCE]
  refine ⟨rfl, hconf, ⟨rfl, rfl⟩, ?_, ?_⟩
  · intro hmono
    rw [hconf]
    rcases hmono with h | ⟨h15, hv⟩
    · refine le_trans h (min_le_min ?_ le_rfl)
      have hc : ((m.visits : ℚ)) ≤ ((m.visits + 1 : Nat) : ℚ) := by
        push_cast
        linarith
      exact (div_le_div_iff_of_pos_right (by norm_num : (0:ℚ) < 10)).mpr hc
    · rw [h15]
      rcases le_total (((m.visits + 1 : Nat) : ℚ) / 10) 1 with hle | hle
      · rw [min_eq_left hle, le_div_iff₀ (by norm_num : (0:ℚ) < 10)]
        have hc : (2 : ℚ) ≤ ((m.visits + 1 : Nat) : ℚ) := by
          push_cast
          have : (1:ℚ) ≤ (m.visits : ℚ) := by exact_mod_cast hv
          linarith
        linarith
      · rw [min_eq_right hle]
        norm_num
  · intro hsat
    rw [hconf, min_eq_right]
    rw [le_div_iff₀ (by norm_num : (0:ℚ) < 10)]
    have hc : (10 : ℚ) ≤ ((m.visits + 1 : Nat) : ℚ) := by exact_mod_cast hsat
    linarith

theorem learnMerchantLocation_confidence_witness :
    (learnMerchantLocation (some sampleMerchLoc) 3 ("Cafe X".toList) 12 22 1).visits = 2 ∧
    sampleMerchLoc.confidence ≤
      (learnMerchantLocation (some sampleMerchLoc) 3 ("Cafe X".toList) 12 22 1).confidence ∧
    (learnMerchantLocation (some { sampleMerchLoc with visits := 9 }) 3 ("Cafe X".toList)
        12 22 1).confidence = 1 := by
  obtain ⟨h1, h2, h3, h4, h5⟩ :=
    learnMerchantLocation_confidence sampleMerchLoc 3 ("Cafe X".toList) 12 22 1
  obtain ⟨g1, g2, g3, g4, g5⟩ :=
    learnMerchantLocation_confidence { sampleMerchLoc with visits := 9 } 3 ("Cafe X".toList) 12 22 1
  exact ⟨h1, h4 (Or.inr ⟨rfl, by decide⟩), g5 (by decide)⟩

/-! ## C6: location-matching strategy order and guards -/

theorem strategyParsedGps_source {ploc : Option ParsedLocation} {r : LocationMatch}
    (h : strategyParsedGps ploc = some r) : r.source = "parsed_gps_coordinates" := by
  cases ploc with
  | none => simp [strategyParsedGps] at h
  | some pl =>
    cases hc : pl.coordinates with
    | none => simp [strategyParsedGps, hc] at h
    | some cs =>
      simp only [strategyParsedGps, hc] at h
      obtain rfl := Option.some.inj h
      rfl

theorem strategyBackground_source {bg : Option BackgroundLocation} {r : LocationMatch}
    (h : strategyBackground bg = some r) : r.source = "background_location_history" := by
  cases bg with
  | none => simp [strategyBackground] at h
  | some b =>
    by_cases hc : b.confidence ≥ LOCATION_CONFIDENCE_MINIMUM
    · simp only [strategyBackground, if_pos hc] at h
      obtain rfl := Option.some.inj h
      rfl
    · simp [strategyBackground, if_neg hc] at h

theorem strategyEmailPattern_source {pdb : List EmailLocationPattern}
    {rt : List Char → List Char → Bool} {uid : Nat} {es ec : Option (List Char)}
    {mn : Option (List Char)} {r : LocationMatch}
    (h : strategyEmailPattern pdb rt uid es ec mn = some r) : r.source = "email_pattern" := by
  by_cases hg : (jsTruthyOptList es && jsTruthyOptList ec) = true
  · simp only [strategyEmailPattern, if_pos hg, Option.map_eq_some'] at h
    obtain ⟨p, -, rfl⟩ := h
    rfl
  · unfold strategyEmailPattern at h
    rw [if_neg hg] at h
    simp at h

theorem strategyTextHint_source {ploc : Option ParsedLocation} {r : LocationMatch}
    (h : strategyTextHint ploc = some r) : r.source = "text_hint" := by
  cases ploc with
  | none => simp [strategyTextHint] at h
  | some pl =>
    cases hh : pl.hint with
    | none => simp [strategyTextHint, hh] at h
    | some hint =>
      by_cases he : hint.isEmpty = true
      · simp [strategyTextHint, hh, he] at h
      · simp only [strategyTextHint, hh, if_neg he] at h
        obtain rfl := Option.some.inj h
        rfl

theorem strategyLearnedMerchant_inv {mdb : List MerchantLocation} {uid : Nat}
    {mn : Option (List Char)} {r : LocationMatch}
    (h : strategyLearnedMerchant mdb uid mn = some r) :
    ∃ m, m ∈ mdb ∧ m.visits ≥ MERCHANT_LEARNING_MIN_VISITS ∧
      m.confidence ≥ LOCATION_CONFIDENCE_MEDIUM ∧ r.confidence = some m.confidence ∧
      r.lat = some m.lat ∧ r.lng = some m.lng := by
  cases mn with
  | none => simp [strategyLearnedMerchant] at h
  | some nm =>
    by_cases he : nm.isEmpty = true
    · simp [strategyLearnedMerchant, he] at h
    · simp only [strategyLearnedMerchant, if_neg he, Option.map_eq_some'] at h
      obtain ⟨m, hm, rfl⟩ := h
      unfold getLearnedMerchantLocation at hm
      have hmem := List.mem_of_find?_eq_some hm
      have hpred := List.find?_some hm
      simp only [Bool.and_eq_true, decide_eq_true_eq] at hpred
      exact ⟨m, hmem, hpred.1.2, hpred.2, rfl, rfl, rfl⟩

/-- C6: the matcher's strategies run in strict priority order with the first
success returned: parsed GPS coordinates always win with confidence 0.9
(= VERY_HIGH); a result drawn from a learned merchant location can only come
from a stored record with visits ≥ 2 and confidence ≥ 0.5, whose confidence
it carries; the learned-merchant strategy preempts the remaining three; and
when every strategy fails the result is null. -/
theorem matchTransactionLocation_spec :
    LOCATION_CONFIDENCE_VERY_HIGH = 9/10 ∧
    MERCHANT_LEARNING_MIN_VISITS = 2 ∧
    LOCATION_CONFIDENCE_MEDIUM = 1/2 ∧
    (∀ mdb bg pdb rt uid mn es ec pl cs, pl.coordinates = some cs →
        matchTransactionLocation mdb bg pdb rt uid mn es ec (some pl) =
          some { coordinates := some cs, lat := none, lng := none,
                 source := "parsed_gps_coordinates",
                 confidence := some LOCATION_CONFIDENCE_VERY_HIGH,
                 locationHint := none, city := none, needsGeocoding := false }) ∧
    (∀ mdb bg pdb rt uid mn es ec ploc r,
        matchTransactionLocation mdb bg pdb rt uid mn es ec ploc = some r →
        r.source = "learned_merchant_location" →
        ∃ m, m ∈ mdb ∧ m.visits ≥ MERCHANT_LEARNING_MIN_VISITS ∧
          m.confidence ≥ LOCATION_CONFIDENCE_MEDIUM ∧ r.confidence = some m.confidence ∧
          r.lat = some m.lat ∧ r.lng = some m.lng) ∧
    (∀ mdb bg pdb rt uid mn es ec ploc r,
        strategyParsedGps ploc = none →
        strategyLearnedMerchant mdb uid mn = some r →
        matchTransactionLocation mdb bg pdb rt uid mn es ec ploc = some r) ∧
    (∀ mdb bg pdb rt uid mn es ec ploc,
        strategyParsedGps ploc = none →
        strategyLearnedMerchant mdb uid mn = none →
        strategyBackground bg = none →
        strategyEmailPattern pdb rt uid es ec mn = none →
        strategyTextHint ploc = none →
        matchTransactionLocation mdb bg pdb rt uid mn es ec ploc = none) := by
  refine ⟨rfl, rfl, rfl, ?_, ?_, ?_, ?_⟩
  · intro mdb bg pdb rt uid mn es ec pl cs hc
    simp only [matchTransactionLocation, strategyParsedGps, hc]
  · intro mdb bg pdb rt uid mn es ec ploc r h hsource
    unfold matchTransactionLocation at h
    cases h1 : strategyParsedGps ploc with
    | some s =>
      rw [h1] at h
      obtain rfl := Option.some.inj h
      rw [strategyParsedGps_source h1] at hsource
      simp at hsource
    | none =>
      rw [h1] at h
      cases h2 : strategyLearnedMerchant mdb uid mn with
      | some s =>
        rw [h2] at h
        obtain rfl := Option.some.inj h
        exact strategyLearnedMerchant_inv h2
      | none =>
        rw [h2] at h
        cases h3 : strategyBackground bg with
        | some s =>
          rw [h3] at h
          obtain rfl := Option.some.inj h
          rw [strategyBackground_source h3] at hsource
          simp at hsource
        | none =>
          rw [h3] at h
          cases h4 : strategyEmailPattern pdb rt uid es ec mn with
          | some s =>
            rw [h4] at h
            obtain rfl := Option.some.inj h
            rw [strategyEmailPattern_source h4] at hsource
            simp at hsource
          | none =>
            rw [h4] at h
            rw [strategyTextHint_source h] at hsource
            simp at hsource
  · intro mdb bg pdb rt uid mn es ec ploc r h1 h2
    unfold matchTransactionLocation
    rw [h1, h2]
  · intro mdb bg pdb rt uid mn es ec ploc h1 h2 h3 h4 h5
    unfold matchTransactionLocation
    rw [h1, h2, h3, h4, h5]

def plGps : ParsedLocation := { coordinates := some [77, 13], hint := none, city := none }

theorem matchTransactionLocation_spec_witness :
    matchTransactionLocation [] none [] (fun _ _ => false) 0 none none none (some plGps) =
      some { coordinates := some [77, 13], lat := none, lng := none,
             source := "parsed_gps_coordinates",
             confidence := some LOCATION_CONFIDENCE_VERY_HIGH,
             locationHint := none, city := none, needsGeocoding := false } :=
  matchTransactionLocation_spec.2.2.2.1 [] none [] (fun _ _ => false) 0 none none none
    plGps [77, 13] rfl

end Spendtrail
